import Mathlib

/-!
Verification development for the EasyWords add-on (field mapping, dictionary
resolution, TTS audio batching, retry logic, and AI caching).

Each definition is a shallow embedding of the corresponding Python function;
file and line references point into the repository sources.  External
collaborators (network transport, the JSON library, the md5 digest, the file
system, the host application) are modelled as explicit function parameters,
following the boundary drawn by the specification.
-/

namespace EasyWords

/-! ## Field mapping (src/config.py, src/note_type.py) -/

/-- One configured value of a per-note-type field mapping.  The source accepts
a structured record with a target and an optional enabled flag (absent flag
defaults to true), a legacy plain string, or skips any other value
(src/config.py lines 175 to 185). -/
inductive MappingValue where
  | flat (target : String)
  | structured (target : String) (enabled : Option Bool)
  | other
deriving DecidableEq

/-- Canonical role names, src/note_type.py lines 21 to 27. -/
def FIELD_NAMES : List String := ["Word", "Phonetic", "Definition", "Example", "Audio"]

/-- The reserved built-in note type name, src/note_type.py line 12. -/
def NOTE_TYPE_NAME : String := "EasyWords Vocabulary"

/-- Loop body of Config.get_field_mapping (src/config.py lines 177 to 184):
keep a structured entry only when its enabled flag (default true) holds, keep
a legacy flat entry unconditionally, skip anything else. -/
def normalizeEntry : String × MappingValue → Option (String × String)
  | (role, MappingValue.structured t e) => if e.getD true then some (role, t) else none
  | (role, MappingValue.flat t) => some (role, t)
  | (_, MappingValue.other) => none

/-- Config.get_field_mapping (src/config.py lines 161 to 186).  The persisted
configuration maps note type names to raw mappings; the raw mapping for the
requested name (or the empty mapping) is normalized and filtered. -/
def get_field_mapping (mappings : List (String × List (String × MappingValue)))
    (noteTypeName : String) : List (String × String) :=
  ((mappings.lookup noteTypeName).getD []).filterMap normalizeEntry

/-- get_mapped_fields (src/note_type.py lines 163 to 205).  A note is seen
through its type name and its ordered field names.  A non-empty configured
mapping is returned as is; otherwise the built-in type gets the canonical
mapping, and any other type is auto-discovered by exact field-name match,
accepted only when the Word role was discovered. -/
def get_mapped_fields (mappings : List (String × List (String × MappingValue)))
    (noteTypeName : String) (noteFieldNames : List String) :
    Option (List (String × String)) :=
  let mapping := get_field_mapping mappings noteTypeName
  if mapping ≠ [] then some mapping
  else if noteTypeName = NOTE_TYPE_NAME then some (FIELD_NAMES.map (fun f => (f, f)))
  else
    let found := FIELD_NAMES.filterMap
      (fun f => if noteFieldNames.contains f then some (f, f) else none)
    if (found.lookup "Word").isSome then some found else none

/-! ## Dictionary resolution engine (src/dictionary/lookup.py) -/

/-- DictionaryResult as produced by the sources (src/dictionary/lookup.py
doc strings; the local store additionally carries the raw markup in an html
field, src/dictionary/mdx_parser.py line 91). -/
structure DictRes where
  phonetic : String
  definition : String
  example_ : String
  html : Option String := none
deriving DecidableEq

/-- get_fallback_result (src/dictionary/lookup.py lines 140 to 150): the
all-empty result used when no dictionary produced a hit. -/
def get_fallback_result : DictRes := { phonetic := "", definition := "", example_ := "", html := none }

/-- Loading loop of get_parsers (src/dictionary/lookup.py lines 28 to 32):
walk the configured paths in order and append a newly loaded source for every
path not yet present; a failed load (the file-system oracle fs returns none)
adds nothing.  The assoc list models the insertion-ordered dict of loaded
sources. -/
def loadSources (fs : String → Option (String → Option DictRes))
    (st : List (String × (String → Option DictRes))) :
    List String → List (String × (String → Option DictRes))
  | [] => st
  | path :: rest =>
      if (st.lookup path).isSome then loadSources fs st rest
      else match fs path with
        | some f => loadSources fs (st ++ [(path, f)]) rest
        | none => loadSources fs st rest

/-- get_parsers (src/dictionary/lookup.py lines 19 to 40): with no configured
paths the loaded-source state is returned untouched and the result list is
empty; otherwise new paths are loaded, stale entries are dropped (order
preserved), and the synchronized sources are returned in insertion order. -/
def get_parsers (fs : String → Option (String → Option DictRes))
    (st : List (String × (String → Option DictRes))) (mdx_paths : List String) :
    List (String × (String → Option DictRes)) × List (String → Option DictRes) :=
  if mdx_paths.isEmpty then (st, [])
  else
    let st1 := loadSources fs st mdx_paths
    let st2 := st1.filter (fun p => mdx_paths.contains p.1)
    (st2, st2.map Prod.snd)

/-- One configured online dictionary: its enabled flag (absent defaults to
false, src/dictionary/lookup.py line 120) and the adapter the factory yields
for it (none models create_online_dictionary returning None; a lookup that
raises is modelled by the adapter returning none, exactly as the caller
treats both, src/dictionary/lookup.py lines 123 to 133). -/
structure OnlineDictCfg where
  enabled : Bool
  adapter : Option (String → Option DictRes)

/-- Adapter loop of lookup_word_online (src/dictionary/lookup.py lines 119 to
137): disabled entries and failed factory constructions are skipped, the
first adapter hit is positively cached and returned, and a full miss stores
the negative marker.  The extra Nat counts adapter lookup invocations. -/
def onlineLoop (word : String) (cache : List (String × Option DictRes)) (calls : Nat) :
    List OnlineDictCfg → Option DictRes × List (String × Option DictRes) × Nat
  | [] => (none, cache ++ [(word, none)], calls)
  | d :: rest =>
      if d.enabled then
        match d.adapter with
        | some f =>
            match f word with
            | some r => (some r, cache ++ [(word, some r)], calls + 1)
            | none => onlineLoop word cache (calls + 1) rest
        | none => onlineLoop word cache calls rest
      else onlineLoop word cache calls rest

/-- lookup_word_online (src/dictionary/lookup.py lines 87 to 137): empty words
miss immediately, a cached entry (positive or the negative marker) is
answered without touching any adapter, otherwise the configured adapters are
tried in order. -/
def lookup_word_online (adapters : List OnlineDictCfg) (word : String)
    (cache : List (String × Option DictRes)) :
    Option DictRes × List (String × Option DictRes) × Nat :=
  if word = "" then (none, cache, 0)
  else
    match cache.lookup word with
    | some cached => (cached, cache, 0)
    | none => onlineLoop word cache 0 adapters

/-- Dictionary mode after Config.get_dictionary_mode normalization
(src/config.py lines 101 to 113). -/
inductive DictMode where
  | localMode
  | onlineMode
  | auto
deriving DecidableEq

/-- Local-source scan of lookup_word (src/dictionary/lookup.py lines 58 to 62
and 73 to 77): first source returning a result wins. -/
def firstHit : List (String → Option DictRes) → String → Option DictRes
  | [], _ => none
  | p :: rest, w =>
      match p w with
      | some r => some r
      | none => firstHit rest w

/-- Outcome of one lookup_word call: the returned value, the two pieces of
process-wide state it left behind, the number of online-adapter lookups it
performed, and whether lookup_word_online was entered at all. -/
structure LookupOutcome where
  result : Option DictRes
  sources : List (String × (String → Option DictRes))
  onlineCache : List (String × Option DictRes)
  onlineCalls : Nat
  onlineEntered : Bool
deriving Inhabited

/-- lookup_word (src/dictionary/lookup.py lines 43 to 84): empty word returns
the absent value immediately; mode local scans the synchronized local
sources; mode online consults lookup_word_online; mode auto does local first
and falls through to online; every miss ends in get_fallback_result. -/
def lookup_word (mode : DictMode) (mdx_paths : List String)
    (fs : String → Option (String → Option DictRes))
    (adapters : List OnlineDictCfg) (word : String)
    (sources : List (String × (String → Option DictRes)))
    (cache : List (String × Option DictRes)) : LookupOutcome :=
  if word = "" then ⟨none, sources, cache, 0, false⟩
  else
    match mode with
    | DictMode.localMode =>
        let s := get_parsers fs sources mdx_paths
        match firstHit s.2 word with
        | some r => ⟨some r, s.1, cache, 0, false⟩
        | none => ⟨some get_fallback_result, s.1, cache, 0, false⟩
    | DictMode.onlineMode =>
        let o := lookup_word_online adapters word cache
        match o.1 with
        | some r => ⟨some r, sources, o.2.1, o.2.2, true⟩
        | none => ⟨some get_fallback_result, sources, o.2.1, o.2.2, true⟩
    | DictMode.auto =>
        let s := get_parsers fs sources mdx_paths
        match firstHit s.2 word with
        | some r => ⟨some r, s.1, cache, 0, false⟩
        | none =>
            let o := lookup_word_online adapters word cache
            match o.1 with
            | some r => ⟨some r, s.1, o.2.1, o.2.2, true⟩
            | none => ⟨some get_fallback_result, s.1, o.2.1, o.2.2, true⟩

/-! ## Local store key normalization (src/dictionary/mdx_parser.py) -/

/-- Characters kept by the fallback-key cleanup regex substitution deleting
the class outside word characters, whitespace and hyphen
(src/dictionary/mdx_parser.py line 78): word characters are letters, digits
and the underscore.  Python \w is Unicode; the model
uses the ASCII classes, which agree on every input the claims touch. -/
def keptChar (c : Char) : Bool := c.isAlphanum || c = '_' || c.isWhitespace || c = '-'

/-- Fallback-key cleanup: drop every character outside the kept classes. -/
def stripSpecial (s : String) : String := ⟨s.data.filter keptChar⟩

/-- Python str.lower(), modelled character-wise (ASCII case folding, which
agrees with Python on every input the claims touch). -/
def pyLower (s : String) : String := ⟨s.data.map Char.toLower⟩

/-- Python str.strip(): whitespace removed from both ends. -/
def pyStrip (s : String) : String :=
  ⟨((s.data.dropWhile Char.isWhitespace).reverse.dropWhile Char.isWhitespace).reverse⟩

/-- Key-selection logic of MDXParser.lookup (src/dictionary/mdx_parser.py
lines 64 to 83) over a loaded table: lowercase and trim the input, reject an
empty key, try the exact key, on a falsy hit (missing key or empty stored
content) retry with the cleaned key, and miss when that is falsy too.  The
selected raw entry is what the remaining lines parse and return (the result
carries it verbatim in its html field), so the claims about which entry is
returned are settled on this selection. -/
def mdx_lookup (table : List (String × String)) (word : String) : Option String :=
  let wl := pyStrip (pyLower word)
  if wl = "" then none
  else
    let h1 := (table.lookup wl).getD ""
    let h2 := if h1 = "" then (table.lookup (stripSpecial wl)).getD "" else h1
    if h2 = "" then none else some h2

/-! ## SAPI5 speed-to-rate mapping (src/tts/sapi5.py) -/

/-- Python int() applied to a rational: truncation toward zero. -/
def pyInt (q : ℚ) : ℤ := if 0 ≤ q then ⌊q⌋ else -⌊-q⌋

/-- Rate computation of SAPI5Engine.generate (src/tts/sapi5.py lines 95 to
96): rate = int((speed - 1.0) * 10) clamped into [-10, 10].  Speeds are
modelled as exact rationals. -/
def sapi5Rate (speed : ℚ) : ℤ := max (-10) (min 10 (pyInt ((speed - 1) * 10)))

/-- Modelled from the spec: the formula rate = clamp(round((speed-1)*10),
-10, 10) stated in section 4.5, with round the round-to-nearest of
Mathlib (half away from zero on the inputs of interest).  Stated only to be
compared with sapi5Rate, which is the embedding of the code. -/
def specSapi5Rate (speed : ℚ) : ℤ := max (-10) (min 10 (round ((speed - 1) * 10)))

/-! ## Bounded retry on the auto-fill audio paths (src/hooks.py) -/

/-- Retry closure _start_generation (src/hooks.py lines 105 to 118 and
identically lines 268 to 281), written as the equivalent explicit recursion
on the number of remaining retries (remaining = 3 - retry_count, so the
guard retry_count < 3 becomes remaining > 0).  The oracle gives the success
of each synthesis attempt in order; the result is the total number of
synthesis attempts made together with the list of completion-callback
invocations (each entry the success flag passed to _on_done). -/
def runGenAux (oracle : Nat → Bool) (attempt : Nat) : Nat → Nat × List Bool
  | 0 => if oracle attempt then (1, [true]) else (1, [false])
  | n + 1 =>
      if oracle attempt then (1, [true])
      else
        let r := runGenAux oracle (attempt + 1) n
        (r.1 + 1, r.2)

/-- The entry call _start_generation() with retry_count = 0. -/
def runGeneration (oracle : Nat → Bool) : Nat × List Bool := runGenAux oracle 0 3

/-! ## Audio batch generation (src/tts/manager.py) -/

/-- One input item of generate_audio_batch (src/tts/manager.py lines 92 to
101): a text plus optional per-item voice and speed (absent keys fall back
to the configured defaults; an absent text behaves as the empty string under
the falsy test of line 118). -/
structure AudioItem where
  text : String
  voice : Option String := none
  speed : Option ℚ := none

/-- One pending generation of the batch (the dict built at src/tts/manager.py
lines 131 to 138). -/
structure GenTask where
  index : Nat
  text : String
  voice : String
  speed : ℚ
  output_path : String
  filename : String

/-- Environment of one generate_audio_batch call: the resolved current engine
name (none models get_current_engine returning None), the filename
derivation (standing for _generate_filename, whose md5 digest is an external
library), the media directory, the cache flag, the configured defaults, and
the file-existence oracles before the dispatch (the cache test of line 128)
and after it (the result test of line 151).  The engine dispatch itself,
batched or sequential, is observable only through existsAfter. -/
structure BatchEnv where
  engineName : Option String
  fname : String → String → String → ℚ → String
  mediaDir : String
  cacheEnabled : Bool
  defaultVoice : String
  defaultSpeed : ℚ
  existsBefore : String → Bool
  existsAfter : String → Bool

/-- First pass of generate_audio_batch (src/tts/manager.py lines 116 to 138)
with ename the resolved engine name: empty texts are recorded as failures at
once, cache hits are resolved at once, and the rest become generation
tasks.  The recursion produces the same two lists, in the same order, as the
appending loop of the source. -/
def batchPass1 (env : BatchEnv) (ename : String) :
    Nat → List AudioItem → List (Nat × Option String) × List GenTask
  | _, [] => ([], [])
  | i, item :: rest =>
      let (ps, gs) := batchPass1 env ename (i + 1) rest
      if item.text = "" then ((i, none) :: ps, gs)
      else
        let voice := item.voice.getD env.defaultVoice
        let speed := item.speed.getD env.defaultSpeed
        let fn := env.fname item.text ename voice speed
        let path := env.mediaDir ++ "/" ++ fn
        if env.cacheEnabled && env.existsBefore path then ((i, some fn) :: ps, gs)
        else (ps, ⟨i, item.text, voice, speed, path, fn⟩ :: gs)

/-- Result collection for the dispatched tasks (src/tts/manager.py lines 150
to 154): a task succeeded exactly when its output file exists afterwards. -/
def batchPost (env : BatchEnv) (gs : List GenTask) : List (Nat × Option String) :=
  gs.map (fun t => (t.index, if env.existsAfter t.output_path then some t.filename else none))

/-- Index order used by the sort of processed_items under the index key
(src/tts/manager.py line 157). -/
def idxLe (a b : Nat × Option String) : Prop := a.1 ≤ b.1

instance : DecidableRel idxLe := fun a b => Nat.decLe a.1 b.1

/-- generate_audio_batch (src/tts/manager.py lines 92 to 158): without an
engine every position is a failure; otherwise the immediately resolved
entries and the collected task results are merged, sorted back into input
order (Python sort modelled by the stable insertion sort), and projected to
the parallel filename list. -/
def generate_audio_batch (env : BatchEnv) (items : List AudioItem) : List (Option String) :=
  match env.engineName with
  | none => items.map (fun _ => none)
  | some ename =>
      let (ps, gs) := batchPass1 env ename 0 items
      let full := ps ++ batchPost env gs
      (full.insertionSort idxLe).map Prod.snd

/-- The per-item value generate_audio_batch is expected to put at the
position of the item: none for an empty text, the derived filename on a cache hit or
when the output file exists after the dispatch, none otherwise. -/
def expectedAudio (env : BatchEnv) (ename : String) (item : AudioItem) : Option String :=
  if item.text = "" then none
  else
    let voice := item.voice.getD env.defaultVoice
    let speed := item.speed.getD env.defaultSpeed
    let fn := env.fname item.text ename voice speed
    let path := env.mediaDir ++ "/" ++ fn
    if env.cacheEnabled && env.existsBefore path then some fn
    else if env.existsAfter path then some fn
    else none

/-! ## JSON values and the online adapters (src/dictionary/online.py,
src/dictionary/online_dict.py) -/

/-- Parsed JSON values, the output of the external json.loads. -/
inductive Json where
  | str (s : String)
  | num (n : Int)
  | bool (b : Bool)
  | null
  | arr (elems : List Json)
  | obj (entries : List (String × Json))

/-- Substring test, modelling the Python operator k in s on strings. -/
def strContainsSub (s pat : String) : Bool :=
  (List.range (s.data.length + 1)).any (fun i => pat.data.isPrefixOf (s.data.drop i))

/-- Python truthiness of a JSON value: empty string, zero, False, None and
empty containers are falsy. -/
def pyFalsy : Json → Bool
  | Json.str s => s = ""
  | Json.num n => n = 0
  | Json.bool b => !b
  | Json.null => true
  | Json.arr xs => xs.isEmpty
  | Json.obj kvs => kvs.isEmpty

/-- Python membership k in v: key lookup on a dict, substring test on a
string, element test on a list; on the remaining values the operator raises
(modelled as none, which the surrounding try block of the adapters turns
into an absent result). -/
def pyContains (v : Json) (k : String) : Option Bool :=
  match v with
  | Json.obj kvs => some (kvs.lookup k).isSome
  | Json.str s => some (strContainsSub s k)
  | Json.arr xs => some (xs.any (fun x => match x with | Json.str s => s == k | _ => false))
  | _ => none

/-- Python indexing v[k] with a string key: only dicts support it; a missing
key raises KeyError and every other value raises TypeError, both modelled as
none (the adapters catch every exception and return an absent result). -/
def pyIndex (v : Json) (k : String) : Option Json :=
  match v with
  | Json.obj kvs => kvs.lookup k
  | _ => none

/-- Python iteration over a value: lists yield their elements, strings their
characters, dicts their keys; the rest raise (none). -/
def pyIter : Json → Option (List Json)
  | Json.arr xs => some xs
  | Json.str s => some (s.data.map (fun c => Json.str c.toString))
  | Json.obj kvs => some (kvs.map (fun kv => Json.str kv.1))
  | _ => none

/-- Result dict built by FreeDictionaryAPI.lookup (src/dictionary/online.py
lines 57 to 61); the stored values are whatever JSON the response held, the
initial value of each component is the empty string. -/
structure FDRes where
  phonetic : Json
  definition : Json
  example_ : Json

/-- Loop over the phonetics member of the entry (src/dictionary/online.py
lines 66 to 70): the first element with a text member wins; some none means the loop finished
without an assignment, none an exception. -/
def fdPhoneticsLoop : List Json → Option (Option Json)
  | [] => some none
  | p :: rest =>
      match pyContains p "text" with
      | none => none
      | some true =>
          match pyIndex p "text" with
          | some t => some (some t)
          | none => none
      | some false => fdPhoneticsLoop rest

/-- Inner loop over the definitions member of a meaning
(src/dictionary/online.py lines 76 to 84), threading the current definition and example values; breaks once
both are truthy. -/
def fdDefsLoop : List Json → Json → Json → Option (Json × Json)
  | [], d, e => some (d, e)
  | df :: rest, d, e =>
      let step : Option (Json × Json) :=
        match (if pyFalsy d then pyContains df "definition" else some false) with
        | none => none
        | some true =>
            match pyIndex df "definition" with
            | some v => some (v, e)
            | none => none
        | some false => some (d, e)
      match step with
      | none => none
      | some (d1, e1) =>
          match (if pyFalsy e1 then pyContains df "example" else some false) with
          | none => none
          | some true =>
              match pyIndex df "example" with
              | some v =>
                  if !pyFalsy d1 && !pyFalsy v then some (d1, v)
                  else fdDefsLoop rest d1 v
              | none => none
          | some false =>
              if !pyFalsy d1 && !pyFalsy e1 then some (d1, e1)
              else fdDefsLoop rest d1 e1

/-- Outer loop over the meanings member of the entry (src/dictionary/online.py
lines 74 to 86); breaks once both definition and example are truthy. -/
def fdMeaningsLoop : List Json → Json → Json → Option (Json × Json)
  | [], d, e => some (d, e)
  | m :: rest, d, e =>
      match pyContains m "definitions" with
      | none => none
      | some false =>
          if !pyFalsy d && !pyFalsy e then some (d, e) else fdMeaningsLoop rest d e
      | some true =>
          match pyIndex m "definitions" with
          | none => none
          | some v =>
              match pyIter v with
              | none => none
              | some defs =>
                  match fdDefsLoop defs d e with
                  | none => none
                  | some (d1, e1) =>
                      if !pyFalsy d1 && !pyFalsy e1 then some (d1, e1)
                      else fdMeaningsLoop rest d1 e1

/-- Extraction body of FreeDictionaryAPI.lookup (src/dictionary/online.py
lines 56 to 88) applied to the first entry of the response list.  Any raised
exception is caught by the surrounding handler and yields an absent result
(none). -/
def fdExtract (entry : Json) : Option FDRes :=
  let phStep : Option Json :=
    match pyContains entry "phonetic" with
    | none => none
    | some true => pyIndex entry "phonetic"
    | some false =>
        match pyContains entry "phonetics" with
        | none => none
        | some true =>
            match pyIndex entry "phonetics" with
            | none => none
            | some v =>
                match pyIter v with
                | none => none
                | some ps =>
                    match fdPhoneticsLoop ps with
                    | none => none
                    | some found => some (found.getD (Json.str ""))
        | some false => some (Json.str "")
  match phStep with
  | none => none
  | some ph =>
      match pyContains entry "meanings" with
      | none => none
      | some false => some ⟨ph, Json.str "", Json.str ""⟩
      | some true =>
          match pyIndex entry "meanings" with
          | none => none
          | some v =>
              match pyIter v with
              | none => none
              | some ms =>
                  match fdMeaningsLoop ms (Json.str "") (Json.str "") with
                  | none => none
                  | some (d, e) => some ⟨ph, d, e⟩

/-- FreeDictionaryAPI.lookup (src/dictionary/online.py lines 43 to 97) on a
successfully fetched and parsed response body: empty words and anything that
is not a non-empty JSON list miss; otherwise the first entry is mined.  The
HTTP transport itself is external and out of the model. -/
def free_dictionary_lookup (word : String) (data : Json) : Option FDRes :=
  if word = "" then none
  else
    match data with
    | Json.arr (entry :: _) => fdExtract entry
    | _ => none

/-- Python str() of a JSON value as used by GenericAPIDictionary._extract_field
(src/dictionary/online_dict.py line 190).  The repr of containers is
abstracted to a fixed placeholder: it is an external builtin, and only the
emptiness of the produced string is ever observed (truthy containers always
produce a non-empty repr). -/
def pyStr : Json → String
  | Json.str s => s
  | Json.num n => toString n
  | Json.bool b => if b then "True" else "False"
  | Json.null => "None"
  | Json.arr _ => "<list>"
  | Json.obj _ => "<dict>"

/-- Path walk of GenericAPIDictionary._extract_field (src/dictionary/online_dict.py
lines 179 to 190): a dict consumes the key, a non-empty list consumes the
key while taking the first element, anything else stops with the empty
string; at the end str(value) if value else the empty string. -/
def extractGo : List String → Json → String
  | [], v => if pyFalsy v then "" else pyStr v
  | k :: ks, Json.obj kvs => extractGo ks ((kvs.lookup k).getD (Json.str ""))
  | _ :: ks, Json.arr (x :: _) => extractGo ks x
  | _ :: _, _ => ""

/-- Python str.split on the dot separator, written character-wise:
path.split('.') splits at every dot and keeps empty components. -/
def splitDots : List Char → List (List Char)
  | [] => [[]]
  | c :: rest =>
      let r := splitDots rest
      if c = '.' then [] :: r
      else (c :: r.headD []) :: r.tail

/-- GenericAPIDictionary._extract_field (src/dictionary/online_dict.py lines
174 to 192): an empty path extracts the empty string, otherwise the dotted
path is walked. -/
def extract_field (data : Json) (path : String) : String :=
  if path = "" then ""
  else extractGo ((splitDots path.data).map (fun l => (⟨l⟩ : String))) data

/-- Result of the generic REST adapter, all components plain strings. -/
structure GenRes where
  phonetic : String
  definition : String
  example_ : String
deriving DecidableEq

/-- GenericAPIDictionary.lookup (src/dictionary/online_dict.py lines 145 to
165) on a successfully fetched response: extract the three configured paths
and convert an all-empty extraction to an absent result (line 165). -/
def generic_lookup (pPath dPath ePath : String) (data : Json) : Option GenRes :=
  let r : GenRes := ⟨extract_field data pPath, extract_field data dPath, extract_field data ePath⟩
  if r.phonetic = "" ∧ r.definition = "" ∧ r.example_ = "" then none else some r

/-! ## AI client cache (src/ai/client.py) -/

/-- OpenAIClient._get_cache_key (src/ai/client.py lines 28 to 31): the word
and the sorted, comma-joined field list.  Python sorted is modelled by the
stable insertion sort under the lexicographic string order. -/
def ai_cache_key (word : String) (fields : List String) : String :=
  word ++ ":" ++ ",".intercalate (fields.insertionSort (· ≤ ·))

/-- OpenAIClient._save_to_cache (src/ai/client.py lines 38 to 44): at
capacity 256 the oldest entry (the head of the insertion-ordered dict) is
popped, then the key is bound, updating an existing binding in place and
appending a fresh one. -/
def save_to_cache (cache : List (String × Json)) (key : String) (res : Json) :
    List (String × Json) :=
  let c := if 256 ≤ cache.length then cache.tail else cache
  if (c.lookup key).isSome then c.map (fun kv => if kv.1 = key then (key, res) else kv)
  else c ++ [(key, res)]

/-- Markdown code-fence cleanup of OpenAIClient.suggest_fields
(src/ai/client.py lines 143 to 146). -/
def cleanupResponse (response : String) : String :=
  if strContainsSub response "```json" then
    ((((response.splitOn "```json").getD 1 "").splitOn "```").headD "").trim
  else if strContainsSub response "```" then
    ((((response.splitOn "```").getD 1 "").splitOn "```").headD "").trim
  else response

/-- OpenAIClient.suggest_fields (src/ai/client.py lines 103 to 154): a cached
entry (including the cached empty result) is returned without a request;
otherwise the AI is asked (its outcome is the respond oracle, none for a
failed or unconfigured request, mirrored from generate_content), the
response is fence-cleaned and parsed by the external parse oracle standing
for json.loads (none = JSONDecodeError), and the result, empty on any
failure, is cached.  The Bool reports whether generate_content was
invoked. -/
def suggest_fields (parse : String → Option Json) (respond : Option String)
    (word : String) (fields : List String) (cache : List (String × Json)) :
    Json × List (String × Json) × Bool :=
  let key := ai_cache_key word fields
  match cache.lookup key with
  | some cached => (cached, cache, false)
  | none =>
      let result : Json :=
        match respond with
        | none => Json.obj []
        | some resp =>
            if resp = "" then Json.obj []
            else
              match parse (cleanupResponse resp) with
              | some j => j
              | none => Json.obj []
      (result, save_to_cache cache key result, true)

/-! ## Scenario constants and expected-value definitions used by the claims -/

/-- Local result served by source file A in the C4 scenario. -/
def c4resA : DictRes := { phonetic := "a", definition := "", example_ := "", html := none }

/-- Local result served by source file B in the C4 scenario. -/
def c4resB : DictRes := { phonetic := "b", definition := "", example_ := "", html := none }

/-- File-system oracle of the C4 scenario: paths A and B both load, each
serving its own result for every word. -/
def c4fs : String → Option (String → Option DictRes) :=
  fun p =>
    if p = "A" then some (fun _ => some c4resA)
    else if p = "B" then some (fun _ => some c4resB)
    else none

instance : IsTotal (Nat × Option String) idxLe := ⟨fun a b => Nat.le_total a.1 b.1⟩

instance : IsTrans (Nat × Option String) idxLe := ⟨fun _ _ _ => Nat.le_trans⟩

instance : IsAntisymm (Nat × Option String) (fun a b => a.1 < b.1) :=
  ⟨fun _ _ h1 h2 => absurd h2 (Nat.lt_asymm h1)⟩

/-- Parallel list of the per-item expected entries, indexed from i. -/
def expectedEntries (env : BatchEnv) (ename : String) :
    Nat → List AudioItem → List (Nat × Option String)
  | _, [] => []
  | i, item :: rest =>
      (i, expectedAudio env ename item) :: expectedEntries env ename (i + 1) rest

/-- The value generate_audio_batch is expected to hold at the position of an
item, for an arbitrary resolved engine. -/
def expectedSlot (env : BatchEnv) (item : AudioItem) : Option String :=
  match env.engineName with
  | none => none
  | some ename => expectedAudio env ename item

/-- Environment of the concrete three-item scenario of C5: caching on, no
cache hits, and synthesis that produces output files for items 1 and 3 but
not item 2. -/
def c5env : BatchEnv :=
  { engineName := some "edge_tts"
    fname := fun t _ _ _ => "f_" ++ t
    mediaDir := "m"
    cacheEnabled := true
    defaultVoice := "v"
    defaultSpeed := 1
    existsBefore := fun _ => false
    existsAfter := fun p => p == "m/f_t1" || p == "m/f_t3" }

/-- One failing suggest_fields call (request fails, respond none) for the
Definition and Example roles, returning the updated cache. -/
def c10step (st : List (String × Json)) (w : String) : List (String × Json) :=
  (suggest_fields (fun _ => none) none w ["Definition", "Example"] st).2.1

/-- 256 pairwise distinct words (strings of 1 to 256 letters a), enough to
fill the AI cache to capacity. -/
def c10words : List String :=
  (List.range 256).map (fun n => String.mk (List.replicate (n + 1) 'a'))

/-! ## Association-list helpers -/

theorem lookup_append_of_none {α β : Type} [BEq α] {l1 l2 : List (α × β)} {k : α}
    (h : l1.lookup k = none) : (l1 ++ l2).lookup k = l2.lookup k := by
  induction l1 with
  | nil => rfl
  | cons p rest ih =>
      rcases p with ⟨a, b⟩
      simp only [List.cons_append, List.lookup_cons] at h ⊢
      cases hk : k == a with
      | true => simp [hk] at h
      | false => simp only [hk] at h ⊢; exact ih h

theorem lookup_eq_none_of_forall {α β : Type} [BEq α] [LawfulBEq α]
    {l : List (α × β)} {k : α} (h : ∀ p ∈ l, p.1 ≠ k) : l.lookup k = none := by
  induction l with
  | nil => rfl
  | cons p rest ih =>
      rcases p with ⟨a, b⟩
      simp only [List.lookup_cons]
      cases hk : k == a with
      | true =>
          exact absurd (by simpa using hk.symm) (by simpa using (h (a, b) (by simp)).symm)
      | false => exact ih (fun q hq => h q (by simp [hq]))

theorem lookup_tail_of_none {α β : Type} [BEq α] {l : List (α × β)} {k : α}
    (h : l.lookup k = none) : l.tail.lookup k = none := by
  cases l with
  | nil => rfl
  | cons p rest =>
      rcases p with ⟨a, b⟩
      simp only [List.lookup_cons] at h
      cases hk : k == a with
      | true => simp [hk] at h
      | false => simpa [hk] using h

/-! ## Engine lemmas shared by the lookup claims -/

theorem firstHit_eq_none {ps : List (String → Option DictRes)} {w : String}
    (h : ∀ f ∈ ps, f w = none) : firstHit ps w = none := by
  induction ps with
  | nil => rfl
  | cons p rest ih =>
      have hp := h p (by simp)
      simp only [firstHit, hp]
      exact ih (fun f hf => h f (by simp [hf]))

theorem onlineLoop_all_miss {word : String} {adapters : List OnlineDictCfg}
    (h : ∀ d ∈ adapters, d.enabled = true → ∀ g, d.adapter = some g → g word = none) :
    ∀ cache calls, ∃ c,
      onlineLoop word cache calls adapters = (none, cache ++ [(word, none)], c) := by
  induction adapters with
  | nil => intro cache calls; exact ⟨calls, rfl⟩
  | cons d rest ih =>
      intro cache calls
      have hrest : ∀ d ∈ rest, d.enabled = true →
          ∀ g, d.adapter = some g → g word = none :=
        fun d hd => h d (List.mem_cons_of_mem _ hd)
      by_cases hd : d.enabled = true
      · cases hadapter : d.adapter with
        | none => simpa [onlineLoop, hd, hadapter] using ih hrest cache calls
        | some g =>
            have hg := h d (by simp) hd g hadapter
            simpa [onlineLoop, hd, hadapter, hg] using ih hrest cache (calls + 1)
      · have : d.enabled = false := by
          cases he : d.enabled
          · rfl
          · exact absurd he hd
        simpa [onlineLoop, this] using ih hrest cache calls

theorem lookup_word_online_cached {adapters : List OnlineDictCfg} {word : String}
    {cache : List (String × Option DictRes)} {v : Option DictRes}
    (hw : ¬ word = "") (hc : cache.lookup word = some v) :
    lookup_word_online adapters word cache = (v, cache, 0) := by
  simp [lookup_word_online, hw, hc]

theorem lookup_word_online_all_miss {adapters : List OnlineDictCfg} {word : String}
    {cache : List (String × Option DictRes)}
    (hw : ¬ word = "") (hc : cache.lookup word = none)
    (h : ∀ d ∈ adapters, d.enabled = true → ∀ g, d.adapter = some g → g word = none) :
    ∃ c, lookup_word_online adapters word cache = (none, cache ++ [(word, none)], c) := by
  rcases onlineLoop_all_miss h cache 0 with ⟨c, hc'⟩
  exact ⟨c, by simp [lookup_word_online, hw, hc, hc']⟩

/-! ## Claim C10 -/

/-- C1, counterexample.  The claim asserts that mapping resolution returns an
absent mapping whenever the Word role is present with enabled false,
regardless of the other roles.  On a configured structured mapping with Word
disabled and Phonetic enabled, get_mapped_fields returns the non-absent
mapping holding exactly the Phonetic role: the Word requirement is enforced
only on the auto-discovery fallback, not on the configured path. -/
theorem C1_counterexample :
    get_mapped_fields
      [("Basic", [("Word", MappingValue.structured "F" (some false)),
                  ("Phonetic", MappingValue.structured "P" (some true))])]
      "Basic" ["F", "P"] = some [("Phonetic", "P")] ∧
    get_mapped_fields
      [("Basic", [("Word", MappingValue.structured "F" (some false)),
                  ("Phonetic", MappingValue.structured "P" (some true))])]
      "Basic" ["F", "P"] ≠ none := by decide

/-- C1, amended.  For a configured mapping in the structured form, resolution
returns exactly the roles whose enabled flag is true; and whenever the
filtered mapping is non-empty it is returned as the resolved mapping even if
the Word role is absent or disabled (the absent mapping arises only when the
filtered mapping is empty and both fallbacks fail). -/
theorem C1_amended (mappings : List (String × List (String × MappingValue)))
    (n : String) (noteFields : List String)
    (hstruct : ∀ p ∈ (mappings.lookup n).getD [],
      ∃ t b, p.2 = MappingValue.structured t (some b)) :
    (∀ r t, (r, t) ∈ get_field_mapping mappings n ↔
      (r, MappingValue.structured t (some true)) ∈ (mappings.lookup n).getD []) ∧
    (get_field_mapping mappings n ≠ [] →
      get_mapped_fields mappings n noteFields = some (get_field_mapping mappings n)) := by
  constructor
  · intro r t
    constructor
    · intro h
      rcases List.mem_filterMap.1 h with ⟨⟨role, v⟩, ha, hna⟩
      rcases hstruct (role, v) ha with ⟨t', b, hb⟩
      simp only at hb
      subst hb
      by_cases hbv : b = true
      · subst hbv
        simp only [normalizeEntry, Option.getD_some, if_pos rfl] at hna
        · cases hna
          exact ha
      · have : b = false := by
          cases b
          · rfl
          · exact absurd rfl hbv
        subst this
        simp [normalizeEntry] at hna
    · intro h
      exact List.mem_filterMap.2
        ⟨(r, MappingValue.structured t (some true)), h, by simp [normalizeEntry]⟩
  · intro hne
    simp [get_mapped_fields, hne]

/-- C1, witness for the amended theorem at a concrete structured mapping. -/
theorem C1_witness :
    (∀ r t, (r, t) ∈ get_field_mapping
        [("Basic", [("Word", MappingValue.structured "F" (some true)),
                    ("Definition", MappingValue.structured "D" (some false))])] "Basic" ↔
      (r, MappingValue.structured t (some true)) ∈
        ((List.lookup "Basic"
          [("Basic", [("Word", MappingValue.structured "F" (some true)),
                      ("Definition", MappingValue.structured "D" (some false))])]).getD [])) ∧
    (get_field_mapping
        [("Basic", [("Word", MappingValue.structured "F" (some true)),
                    ("Definition", MappingValue.structured "D" (some false))])] "Basic" ≠ [] →
      get_mapped_fields
        [("Basic", [("Word", MappingValue.structured "F" (some true)),
                    ("Definition", MappingValue.structured "D" (some false))])] "Basic" ["F", "D"] =
      some (get_field_mapping
        [("Basic", [("Word", MappingValue.structured "F" (some true)),
                    ("Definition", MappingValue.structured "D" (some false))])] "Basic")) :=
  C1_amended _ "Basic" ["F", "D"] (by
    intro p hp
    rw [show ((List.lookup "Basic"
          [("Basic", [("Word", MappingValue.structured "F" (some true)),
                      ("Definition", MappingValue.structured "D" (some false))])]).getD []) =
        [("Word", MappingValue.structured "F" (some true)),
         ("Definition", MappingValue.structured "D" (some false))] from rfl] at hp
    simp only [List.mem_cons, List.not_mem_nil, or_false] at hp
    rcases hp with rfl | rfl
    · exact ⟨"F", true, rfl⟩
    · exact ⟨"D", false, rfl⟩)

/-! ## Claim C2 -/

/-- C2, counterexample.  The claim asserts that lookup_word never returns the
absent value for any input word string, yet on the empty word it returns
None before consulting any source (src/dictionary/lookup.py lines 51 to
52). -/
theorem C2_counterexample :
    (lookup_word DictMode.auto [] (fun _ => none) [] "" [] []).result = none := rfl

/-- C2, amended.  For every non-empty word, lookup_word returns a present
DictionaryResult in every mode and from every state; and when every
synchronized local source misses, every enabled online adapter misses, and
the online cache holds no positive entry for the word, the returned value is
exactly the all-empty fallback result. -/
theorem C2_amended (mode : DictMode) (mdx_paths : List String)
    (fs : String → Option (String → Option DictRes)) (adapters : List OnlineDictCfg)
    (word : String) (sources : List (String × (String → Option DictRes)))
    (cache : List (String × Option DictRes)) (hw : ¬ word = "") :
    ((lookup_word mode mdx_paths fs adapters word sources cache).result.isSome = true) ∧
    ((∀ f ∈ (get_parsers fs sources mdx_paths).2, f word = none) →
     (∀ d ∈ adapters, d.enabled = true → ∀ g, d.adapter = some g → g word = none) →
     (cache.lookup word = none ∨ cache.lookup word = some none) →
     (lookup_word mode mdx_paths fs adapters word sources cache).result =
       some get_fallback_result) := by
  constructor
  · cases mode with
    | localMode =>
        simp only [lookup_word, if_neg hw]
        cases h : firstHit (get_parsers fs sources mdx_paths).2 word <;> simp [h]
    | onlineMode =>
        simp only [lookup_word, if_neg hw]
        cases h : (lookup_word_online adapters word cache).1 <;> simp [h]
    | auto =>
        simp only [lookup_word, if_neg hw]
        cases h : firstHit (get_parsers fs sources mdx_paths).2 word with
        | some r => simp [h]
        | none =>
            cases h2 : (lookup_word_online adapters word cache).1 <;> simp [h, h2]
  · intro hlocal honline hcache
    have hfh : firstHit (get_parsers fs sources mdx_paths).2 word = none :=
      firstHit_eq_none hlocal
    have honl : (lookup_word_online adapters word cache).1 = none := by
      rcases hcache with hc | hc
      · rcases lookup_word_online_all_miss hw hc honline with ⟨c, hc'⟩
        simp [hc']
      · simp [lookup_word_online_cached hw hc]
    cases mode with
    | localMode => simp [lookup_word, if_neg hw, hfh]
    | onlineMode =>
        simp only [lookup_word, if_neg hw]
        rw [show (lookup_word_online adapters word cache) =
          ((lookup_word_online adapters word cache).1,
           (lookup_word_online adapters word cache).2.1,
           (lookup_word_online adapters word cache).2.2) from rfl, honl]
    | auto =>
        simp only [lookup_word, if_neg hw, hfh]
        rw [show (lookup_word_online adapters word cache) =
          ((lookup_word_online adapters word cache).1,
           (lookup_word_online adapters word cache).2.1,
           (lookup_word_online adapters word cache).2.2) from rfl, honl]

/-- C2, witness for the amended theorem: a non-empty word against one failing
local source, one failing enabled online adapter, and an empty cache yields
the present all-empty fallback in auto mode. -/
theorem C2_witness :
    ((lookup_word DictMode.auto ["d.mdx"] (fun _ => some (fun _ => none))
        [⟨true, some (fun _ => none)⟩] "hi" [] []).result.isSome = true) ∧
    ((∀ f ∈ (get_parsers (fun _ => some (fun _ => none)) [] ["d.mdx"]).2, f "hi" = none) →
     (∀ d ∈ [(⟨true, some (fun _ => none)⟩ : OnlineDictCfg)], d.enabled = true →
        ∀ g, d.adapter = some g → g "hi" = none) →
     (List.lookup "hi" ([] : List (String × Option DictRes)) = none ∨
      List.lookup "hi" ([] : List (String × Option DictRes)) = some none) →
     (lookup_word DictMode.auto ["d.mdx"] (fun _ => some (fun _ => none))
        [⟨true, some (fun _ => none)⟩] "hi" [] []).result = some get_fallback_result) := by
  have h := C2_amended DictMode.auto ["d.mdx"] (fun _ => some (fun _ => none))
    [⟨true, some (fun _ => none)⟩] "hi" [] [] (by decide)
  exact h

/-! ## Claim C3 -/

/-- C3, counterexample.  The claim asserts the retry is bounded at 3 attempts
with the failure callback after 3 consecutive failures; with an
always-failing synthesis the code makes 4 attempts (1 initial plus 3
retries, the guard being retry_count < 3) before invoking the completion
callback once with failure. -/
theorem C3_counterexample :
    runGeneration (fun _ => false) = (4, [false]) ∧
    (runGeneration (fun _ => false)).1 ≠ 3 := by decide

/-- C3, amended.  If audio synthesis fails 4 consecutive times, the
completion callback is invoked exactly once, with failure, and no further
synthesis attempts occur: the retry is bounded at 3 immediate retries after
the initial attempt (4 attempts in total), and on every oracle the process
makes at most 4 attempts and invokes the completion callback exactly
once. -/
theorem C3_amended (oracle : Nat → Bool) (hfail : ∀ k, k < 4 → oracle k = false) :
    runGeneration oracle = (4, [false]) ∧
    (∀ o : Nat → Bool, (runGeneration o).1 ≤ 4 ∧ (runGeneration o).2.length = 1) := by
  have bound : ∀ (n a : Nat) (o : Nat → Bool),
      (runGenAux o a n).1 ≤ n + 1 ∧ (runGenAux o a n).2.length = 1 := by
    intro n
    induction n with
    | zero => intro a o; by_cases h : o a = true <;> simp [runGenAux, h]
    | succ m ih =>
        intro a o
        by_cases h : o a = true
        · simp [runGenAux, h]
        · have hm := ih (a + 1) o
          simp only [runGenAux, h, Bool.false_eq_true, if_false]
          constructor
          · omega
          · exact hm.2
  refine ⟨?_, fun o => bound 3 0 o⟩
  have h0 := hfail 0 (by omega)
  have h1 := hfail 1 (by omega)
  have h2 := hfail 2 (by omega)
  have h3 := hfail 3 (by omega)
  simp [runGeneration, runGenAux, h0, h1, h2, h3]

/-- C3, witness for the amended theorem with the always-failing oracle. -/
theorem C3_witness :
    runGeneration (fun _ => false) = (4, [false]) ∧
    (∀ o : Nat → Bool, (runGeneration o).1 ≤ 4 ∧ (runGeneration o).2.length = 1) :=
  C3_amended (fun _ => false) (fun _ _ => rfl)

/-! ## Claim C4 -/

/-- C4, counterexample.  The claim asserts lookup_word tries the configured
local sources in configured order.  With the loaded-source state left by an
earlier call under configuration [A, B], a lookup under the reordered
configuration [B, A] still returns the result of A (insertion order), while
the same lookup from a fresh state returns the result of B (the configured
first source); the two results differ, so iteration does not follow the
configured order. -/
theorem C4_counterexample :
    (lookup_word DictMode.auto ["B", "A"] c4fs [] "w"
       (lookup_word DictMode.auto ["A", "B"] c4fs [] "w" [] []).sources []).result =
      some c4resA ∧
    (lookup_word DictMode.auto ["B", "A"] c4fs [] "w" [] []).result = some c4resB ∧
    c4resA ≠ c4resB := by
  refine ⟨rfl, rfl, by decide⟩

theorem loadSources_fresh (fs : String → Option (String → Option DictRes)) :
    ∀ (mdx : List String) (st : List (String × (String → Option DictRes))),
    (∀ p ∈ mdx, st.lookup p = none) → mdx.Nodup →
    loadSources fs st mdx = st ++ mdx.filterMap (fun p => (fs p).map (fun f => (p, f))) := by
  intro mdx
  induction mdx with
  | nil => intro st _ _; simp [loadSources]
  | cons p rest ih =>
      intro st hfresh hnd
      have hp : st.lookup p = none := hfresh p (by simp)
      have hnotmem : p ∉ rest := (List.nodup_cons.1 hnd).1
      have hndrest : rest.Nodup := (List.nodup_cons.1 hnd).2
      simp only [loadSources, hp, Option.isSome_none, Bool.false_eq_true, if_false]
      cases hfp : fs p with
      | none =>
          show loadSources fs st rest = _
          rw [ih st (fun q hq => hfresh q (by simp [hq])) hndrest]
          simp [hfp]
      | some f =>
          have hfresh2 : ∀ q ∈ rest, (st ++ [(p, f)]).lookup q = none := by
            intro q hq
            rw [lookup_append_of_none (hfresh q (by simp [hq]))]
            have hqp : ¬ q = p := fun h => hnotmem (h ▸ hq)
            have hbeq : (q == p) = false := by simpa using hqp
            simp [List.lookup_cons, hbeq]
          show loadSources fs (st ++ [(p, f)]) rest = _
          rw [ih (st ++ [(p, f)]) hfresh2 hndrest]
          simp [hfp]

theorem get_parsers_fresh (fs : String → Option (String → Option DictRes))
    (mdx : List String) (hnd : mdx.Nodup) :
    get_parsers fs [] mdx =
      (mdx.filterMap (fun p => (fs p).map (fun f => (p, f))),
       (mdx.filterMap (fun p => (fs p).map (fun f => (p, f)))).map Prod.snd) := by
  unfold get_parsers
  cases mdx with
  | nil => simp
  | cons p rest =>
      rw [if_neg (by simp)]
      rw [loadSources_fresh fs (p :: rest) [] (by intro q hq; rfl) hnd]
      have hall : ∀ a ∈ (p :: rest).filterMap (fun q => (fs q).map (fun f => (q, f))),
          (p :: rest).contains a.1 = true := by
        intro a ha
        rcases List.mem_filterMap.1 ha with ⟨q, hq, hqa⟩
        cases hfq : fs q with
        | none => simp [hfq] at hqa
        | some f =>
            simp only [hfq, Option.map_some] at hqa
            cases hqa
            simpa [List.contains] using List.elem_eq_true_of_mem hq
      simp only [List.nil_append]
      rw [List.filter_eq_self.2 hall]

/-- C4, amended.  In auto mode, on every non-empty word for which the
synchronized local sources produce a hit, lookup_word returns the first such
hit (first match wins), performs zero online-adapter invocations and never
enters the online path; the local sources are iterated in first-load
(insertion) order, which coincides with the configured order whenever the
loaded-source state was built fresh under the current configuration. -/
theorem C4_amended (mdx_paths : List String)
    (fs : String → Option (String → Option DictRes)) (adapters : List OnlineDictCfg)
    (word : String) (sources : List (String × (String → Option DictRes)))
    (cache : List (String × Option DictRes)) (r : DictRes) (hw : ¬ word = "")
    (hhit : firstHit (get_parsers fs sources mdx_paths).2 word = some r) :
    (lookup_word DictMode.auto mdx_paths fs adapters word sources cache).result = some r ∧
    (lookup_word DictMode.auto mdx_paths fs adapters word sources cache).onlineCalls = 0 ∧
    (lookup_word DictMode.auto mdx_paths fs adapters word sources cache).onlineEntered = false ∧
    (mdx_paths.Nodup →
      get_parsers fs [] mdx_paths =
        (mdx_paths.filterMap (fun p => (fs p).map (fun f => (p, f))),
         (mdx_paths.filterMap (fun p => (fs p).map (fun f => (p, f)))).map Prod.snd)) := by
  refine ⟨?_, ?_, ?_, fun hnd => get_parsers_fresh fs mdx_paths hnd⟩ <;>
    simp [lookup_word, hw, hhit]

/-- C4, witness for the amended theorem: one loadable path A serving a hit,
one enabled online adapter, fresh state. -/
theorem C4_witness :
    (lookup_word DictMode.auto ["A"] c4fs [⟨true, some (fun _ => some c4resB)⟩]
       "w" [] []).result = some c4resA ∧
    (lookup_word DictMode.auto ["A"] c4fs [⟨true, some (fun _ => some c4resB)⟩]
       "w" [] []).onlineCalls = 0 ∧
    (lookup_word DictMode.auto ["A"] c4fs [⟨true, some (fun _ => some c4resB)⟩]
       "w" [] []).onlineEntered = false ∧
    (List.Nodup ["A"] →
      get_parsers c4fs [] ["A"] =
        (["A"].filterMap (fun p => (c4fs p).map (fun f => (p, f))),
         (["A"].filterMap (fun p => (c4fs p).map (fun f => (p, f)))).map Prod.snd)) :=
  C4_amended ["A"] c4fs [⟨true, some (fun _ => some c4resB)⟩] "w" [] [] c4resA
    (by decide) rfl

/-! ## Claim C5 -/

theorem expectedEntries_key_ge (env : BatchEnv) (ename : String) :
    ∀ (items : List AudioItem) (i : Nat) (e : Nat × Option String),
    e ∈ expectedEntries env ename i items → i ≤ e.1 := by
  intro items
  induction items with
  | nil => intro i e he; simp [expectedEntries] at he
  | cons item rest ih =>
      intro i e he
      rcases (List.mem_cons.1 he) with rfl | he2
      · exact Nat.le_refl i
      · exact Nat.le_of_succ_le (ih (i + 1) e he2)

theorem expectedEntries_sorted (env : BatchEnv) (ename : String) :
    ∀ (items : List AudioItem) (i : Nat),
    (expectedEntries env ename i items).Pairwise (fun a b => a.1 < b.1) := by
  intro items
  induction items with
  | nil => intro i; simp [expectedEntries]
  | cons item rest ih =>
      intro i
      refine List.pairwise_cons.2 ⟨?_, ih (i + 1)⟩
      intro e he
      exact Nat.lt_of_lt_of_le (Nat.lt_succ_self i) (expectedEntries_key_ge env ename rest (i + 1) e he)

theorem expectedEntries_map_snd (env : BatchEnv) (ename : String) :
    ∀ (items : List AudioItem) (i : Nat),
    (expectedEntries env ename i items).map Prod.snd = items.map (expectedAudio env ename) := by
  intro items
  induction items with
  | nil => intro i; rfl
  | cons item rest ih => intro i; simp [expectedEntries, ih (i + 1)]

theorem batch_perm (env : BatchEnv) (ename : String) :
    ∀ (items : List AudioItem) (i : Nat),
    ((batchPass1 env ename i items).1 ++
      batchPost env (batchPass1 env ename i items).2).Perm
      (expectedEntries env ename i items) := by
  intro items
  induction items with
  | nil => intro i; simp [batchPass1, batchPost, expectedEntries]
  | cons item rest ih =>
      intro i
      have hrec := ih (i + 1)
      by_cases ht : item.text = ""
      · simp only [batchPass1, ht, if_pos rfl, expectedEntries, expectedAudio]
        simpa [ht] using hrec.cons (i, none)
      · by_cases hcache : (env.cacheEnabled &&
            env.existsBefore (env.mediaDir ++ "/" ++
              env.fname item.text ename (item.voice.getD env.defaultVoice)
                (item.speed.getD env.defaultSpeed))) = true
        · simp only [batchPass1, ht, if_neg ht, hcache, if_pos rfl, expectedEntries,
            expectedAudio]
          simpa [ht, hcache] using
            hrec.cons (i, some (env.fname item.text ename
              (item.voice.getD env.defaultVoice) (item.speed.getD env.defaultSpeed)))
        · simp only [batchPass1, ht, if_neg ht, hcache, expectedEntries, expectedAudio,
            batchPost, List.map_cons]
          refine List.Perm.trans List.perm_middle ?_
          simp only [if_neg ht, hcache, Bool.false_eq_true, if_false]
          exact hrec.cons _

theorem sort_by_idx_eq {l E : List (Nat × Option String)} (hperm : l.Perm E)
    (hE : E.Pairwise (fun a b => a.1 < b.1)) : l.insertionSort idxLe = E := by
  have hp1 : (l.insertionSort idxLe).Perm E :=
    (List.perm_insertionSort idxLe l).trans hperm
  have hs1 : (l.insertionSort idxLe).Pairwise idxLe := List.sorted_insertionSort idxLe l
  have hEne : E.Pairwise (fun a b : Nat × Option String => a.1 ≠ b.1) :=
    hE.imp (fun h => Nat.ne_of_lt h)
  have hne : (l.insertionSort idxLe).Pairwise (fun a b : Nat × Option String => a.1 ≠ b.1) :=
    (List.Perm.pairwise_iff (fun h => Ne.symm h) hp1).2 hEne
  have hs2 : (l.insertionSort idxLe).Pairwise (fun a b : Nat × Option String => a.1 < b.1) :=
    (hs1.and hne).imp (fun h => Nat.lt_of_le_of_ne h.1 h.2)
  exact List.eq_of_perm_of_sorted hp1 hs2 hE

/-- C5, confirmed.  generate_audio_batch returns a parallel list of the same
length as its input and strictly in input order: position i holds exactly
the per-item expected value (the derived filename on a cache hit or when the
synthesis output file exists, absent otherwise), independently of the order
the dispatched entries were processed in; in the concrete three-item
scenario where item 2 fails and items 1 and 3 succeed the result is
[path1, absent, path3]. -/
theorem C5_batch_order :
    (∀ (env : BatchEnv) (items : List AudioItem),
      generate_audio_batch env items = items.map (expectedSlot env)) ∧
    generate_audio_batch c5env
        [{ text := "t1" }, { text := "t2" }, { text := "t3" }] =
      [some "f_t1", none, some "f_t3"] := by
  constructor
  · intro env items
    cases henv : env.engineName with
    | none =>
        simp only [generate_audio_batch, henv]
        apply List.map_congr_left
        intro item _
        simp [expectedSlot, henv]
    | some ename =>
        simp only [generate_audio_batch, henv]
        rw [sort_by_idx_eq (batch_perm env ename items 0)
          (expectedEntries_sorted env ename items 0)]
        rw [expectedEntries_map_snd env ename items 0]
        apply List.map_congr_left
        intro item _
        simp [expectedSlot, henv]
  · rfl

/-! ## Claim C6 -/

/-- C6, counterexample.  The claim states the rate as
clamp(round((speed-1)*10), -10, 10); the code applies Python int(), which
truncates toward zero.  At speed 1.99 the linear image is 9.9: the code
produces rate 9 while the claimed formula produces 10. -/
theorem C6_counterexample :
    sapi5Rate (199 / 100) = 9 ∧ specSapi5Rate (199 / 100) = 10 ∧
    sapi5Rate (199 / 100) ≠ specSapi5Rate (199 / 100) := by
  refine ⟨?_, ?_, ?_⟩ <;> norm_num [sapi5Rate, specSapi5Rate, pyInt, round_eq]

/-- C6, amended.  The speed multiplier is mapped linearly to the native rate
by truncation toward zero, rate = clamp(int((speed-1)*10), -10, 10); on the
whole multiplier range [0.5, 2.0] the clamp is inactive and the rate is the
truncation of (speed-1)*10, lying in [-5, 10]. -/
theorem C6_amended (speed : ℚ) (h1 : 1 / 2 ≤ speed) (h2 : speed ≤ 2) :
    sapi5Rate speed = pyInt ((speed - 1) * 10) ∧
    -5 ≤ pyInt ((speed - 1) * 10) ∧ pyInt ((speed - 1) * 10) ≤ 10 := by
  have hq1 : (-5 : ℚ) ≤ (speed - 1) * 10 := by linarith
  have hq2 : (speed - 1) * 10 ≤ 10 := by linarith
  have hb : -5 ≤ pyInt ((speed - 1) * 10) ∧ pyInt ((speed - 1) * 10) ≤ 10 := by
    unfold pyInt
    by_cases hpos : 0 ≤ (speed - 1) * 10
    · rw [if_pos hpos]
      constructor
      · have h0 : 0 ≤ ⌊(speed - 1) * 10⌋ := Int.floor_nonneg.2 hpos
        omega
      · have : ⌊(speed - 1) * 10⌋ ≤ ⌊(10 : ℚ)⌋ := Int.floor_le_floor hq2
        simpa using this
    · rw [if_neg hpos]
      push_neg at hpos
      constructor
      · have : ⌊-((speed - 1) * 10)⌋ ≤ ⌊(5 : ℚ)⌋ := Int.floor_le_floor (by linarith)
        simp only [show ⌊(5 : ℚ)⌋ = 5 by norm_num] at this
        omega
      · have : 0 ≤ ⌊-((speed - 1) * 10)⌋ := Int.floor_nonneg.2 (by linarith)
        omega
  refine ⟨?_, hb⟩
  unfold sapi5Rate
  omega

/-- C6, witness for the amended theorem at speed 1.5 (rate 5). -/
theorem C6_witness :
    sapi5Rate (3 / 2) = pyInt ((3 / 2 - 1) * 10) ∧
    -5 ≤ pyInt (((3 : ℚ) / 2 - 1) * 10) ∧ pyInt (((3 : ℚ) / 2 - 1) * 10) ≤ 10 :=
  C6_amended (3 / 2) (by norm_num) (by norm_num)

/-! ## Claim C7 -/

/-- C7, counterexample.  The claim quantifies over every loaded table
containing the key hello: when the stored content under hello is the empty
entry, the falsy-content test of line 81 treats both probes as misses and
lookup returns the absent value instead of the stored entry. -/
theorem C7_counterexample :
    List.lookup "hello" [("hello", "")] = some "" ∧
    List.lookup "hello!" [("hello", "")] = none ∧
    mdx_lookup [("hello", "")] "Hello!" = none := by decide

/-- C7, amended.  For every loaded table containing the key hello with a
non-empty stored entry and no key hello!, lookup of the input Hello!
lowercases and trims it to hello!, misses on that exact key, retries with
the characters outside letters, digits, underscore, whitespace and hyphen
stripped, and returns the entry stored under hello. -/
theorem C7_amended (table : List (String × String)) (e : String)
    (hh : table.lookup "hello" = some e) (hne : e ≠ "")
    (hex : table.lookup "hello!" = none) :
    mdx_lookup table "Hello!" = some e := by
  have hwl : pyStrip (pyLower "Hello!") = "hello!" := rfl
  have hstrip : stripSpecial "hello!" = "hello" := rfl
  unfold mdx_lookup
  rw [hwl]
  simp [hex, hstrip, hh, hne]

/-- C7, witness for the amended theorem on a one-entry table. -/
theorem C7_witness : mdx_lookup [("hello", "<b>entry</b>")] "Hello!" = some "<b>entry</b>" :=
  C7_amended [("hello", "<b>entry</b>")] "<b>entry</b>" (by decide) (by decide) (by decide)

/-! ## Claim C8 -/

/-- C8, confirmed.  Once a non-empty word not yet in the cache has been tried
against every enabled online adapter without a hit, the explicit not-found
marker is stored for it, and the next online lookup of the same word is
answered from the cache: it returns the cached miss, leaves the cache
unchanged, and performs zero adapter invocations. -/
theorem C8_negative_caching (adapters : List OnlineDictCfg) (word : String)
    (cache : List (String × Option DictRes)) (hw : ¬ word = "")
    (hmiss : cache.lookup word = none)
    (hfail : ∀ d ∈ adapters, d.enabled = true → ∀ g, d.adapter = some g → g word = none) :
    (lookup_word_online adapters word cache).1 = none ∧
    ((lookup_word_online adapters word cache).2.1).lookup word = some none ∧
    lookup_word_online adapters word ((lookup_word_online adapters word cache).2.1) =
      (none, (lookup_word_online adapters word cache).2.1, 0) := by
  rcases lookup_word_online_all_miss hw hmiss hfail with ⟨c, hc⟩
  have hcached : ((lookup_word_online adapters word cache).2.1).lookup word = some none := by
    rw [hc]
    rw [lookup_append_of_none hmiss]
    simp [List.lookup_cons]
  refine ⟨by simp [hc], hcached, ?_⟩
  exact lookup_word_online_cached hw hcached

/-- C8, witness: one enabled adapter that misses, the word w, an empty
cache. -/
theorem C8_witness :
    (lookup_word_online [⟨true, some (fun _ => none)⟩] "w" []).1 = none ∧
    ((lookup_word_online [⟨true, some (fun _ => none)⟩] "w" []).2.1).lookup "w" = some none ∧
    lookup_word_online [⟨true, some (fun _ => none)⟩] "w"
        ((lookup_word_online [⟨true, some (fun _ => none)⟩] "w" []).2.1) =
      (none, (lookup_word_online [⟨true, some (fun _ => none)⟩] "w" []).2.1, 0) := by
  apply C8_negative_caching
  · decide
  · rfl
  · rintro d hd htrue g hg
    have hd' : d = (⟨true, some (fun _ => none)⟩ : OnlineDictCfg) := by
      simpa using hd
    subst hd'
    simp only at hg
    cases hg
    rfl

/-! ## Claim C9 -/

/-- C9, confirmed.  FreeDictionaryAPI.lookup returns the present all-empty
result, not the absent value, on every well-formed non-empty JSON list
response whose first entry is an object lacking the phonetic, phonetics and
meanings members; the generic REST adapter instead converts an all-empty
extraction to the absent value; and any adapter hit, the all-empty result
included, is cached positively by the online lookup path with exactly one
adapter invocation. -/
theorem C9_empty_hit (word : String) (hw : ¬ word = "")
    (okvs : List (String × Json)) (rest : List Json)
    (h1 : okvs.lookup "phonetic" = none)
    (h2 : okvs.lookup "phonetics" = none)
    (h3 : okvs.lookup "meanings" = none)
    (pPath dPath ePath : String) (data2 : Json)
    (he1 : extract_field data2 pPath = "")
    (he2 : extract_field data2 dPath = "")
    (he3 : extract_field data2 ePath = "")
    (r : DictRes) (af : String → Option DictRes) (haf : af word = some r)
    (cache : List (String × Option DictRes)) (hc : cache.lookup word = none) :
    free_dictionary_lookup word (Json.arr (Json.obj okvs :: rest)) =
      some ⟨Json.str "", Json.str "", Json.str ""⟩ ∧
    generic_lookup pPath dPath ePath data2 = none ∧
    lookup_word_online [⟨true, some af⟩] word cache =
      (some r, cache ++ [(word, some r)], 1) := by
  refine ⟨?_, ?_, ?_⟩
  · simp [free_dictionary_lookup, hw, fdExtract, pyContains, h1, h2, h3]
  · simp [generic_lookup, he1, he2, he3]
  · simp [lookup_word_online, hw, hc, onlineLoop, haf]

/-- C9, witness: the word hi, a response list whose first entry is an object
with only a word member, a generic extraction on an empty object, and an
adapter returning the all-empty result into an empty cache. -/
theorem C9_witness :
    free_dictionary_lookup "hi" (Json.arr (Json.obj [("word", Json.str "hi")] :: [])) =
      some ⟨Json.str "", Json.str "", Json.str ""⟩ ∧
    generic_lookup "phonetic" "definition" "example" (Json.obj []) = none ∧
    lookup_word_online [⟨true, some (fun _ => some get_fallback_result)⟩] "hi" [] =
      (some get_fallback_result, [] ++ [("hi", some get_fallback_result)], 1) := by
  apply C9_empty_hit
  · decide
  · rfl
  · rfl
  · rfl
  · rfl
  · rfl
  · rfl
  · rfl
  · rfl

/-! ## Claim C10 -/

theorem ai_cache_key_inj {fl : List String} {w1 w2 : String}
    (h : ai_cache_key w1 fl = ai_cache_key w2 fl) : w1 = w2 := by
  unfold ai_cache_key at h
  have hd := congrArg String.data h
  rw [String.data_append, String.data_append, String.data_append, String.data_append] at hd
  have h1 := List.append_cancel_right hd
  have h2 := List.append_cancel_right h1
  exact String.ext h2

theorem c10step_miss {st : List (String × Json)} {w : String}
    (hmiss : st.lookup (ai_cache_key w ["Definition", "Example"]) = none) :
    c10step st w =
      (if 256 ≤ st.length then st.tail else st) ++
        [(ai_cache_key w ["Definition", "Example"], Json.obj [])] := by
  unfold c10step suggest_fields save_to_cache
  by_cases hlen : 256 ≤ st.length
  · simp [hmiss, hlen, lookup_tail_of_none hmiss]
  · simp [hmiss, hlen]

theorem c10_fold : ∀ (ws : List String) (c : List (String × Json)),
    c.length ≤ 256 →
    (∀ w ∈ ws, c.lookup (ai_cache_key w ["Definition", "Example"]) = none) →
    ws.Pairwise (fun w1 w2 =>
      ai_cache_key w1 ["Definition", "Example"] ≠ ai_cache_key w2 ["Definition", "Example"]) →
    ws.foldl c10step c =
      (c ++ ws.map (fun w => (ai_cache_key w ["Definition", "Example"], Json.obj []))).drop
        (c.length + ws.length - 256) := by
  intro ws
  induction ws with
  | nil =>
      intro c hlen _ _
      simp [Nat.sub_eq_zero_of_le hlen]
  | cons w rest ih =>
      intro c hlen hfresh hpair
      have hw : c.lookup (ai_cache_key w ["Definition", "Example"]) = none :=
        hfresh w (by simp)
      have hhead : ∀ v ∈ rest,
          ai_cache_key w ["Definition", "Example"] ≠ ai_cache_key v ["Definition", "Example"] :=
        (List.pairwise_cons.1 hpair).1
      have hpairrest := (List.pairwise_cons.1 hpair).2
      rw [List.foldl_cons, c10step_miss hw]
      by_cases h256 : 256 ≤ c.length
      · have hceq : c.length = 256 := Nat.le_antisymm hlen h256
        rw [if_pos h256]
        cases c with
        | nil => simp at hceq
        | cons hd tl =>
            have htl : tl.length = 255 := by simpa using hceq
            have hfresh2 : ∀ v ∈ rest,
                ((hd :: tl).tail ++
                  [(ai_cache_key w ["Definition", "Example"], Json.obj [])]).lookup
                  (ai_cache_key v ["Definition", "Example"]) = none := by
              intro v hv
              rw [lookup_append_of_none (lookup_tail_of_none (hfresh v (by simp [hv])))]
              have hne : ¬ ai_cache_key v ["Definition", "Example"] =
                  ai_cache_key w ["Definition", "Example"] :=
                fun h => hhead v hv h.symm
              have hbeq : (ai_cache_key v ["Definition", "Example"] ==
                  ai_cache_key w ["Definition", "Example"]) = false := by simpa using hne
              simp [List.lookup_cons, hbeq]
            rw [ih _ (by simp [htl]) hfresh2 hpairrest]
            simp only [List.tail_cons, List.length_append, List.length_cons, htl,
              List.length_nil, List.map_cons, List.cons_append, List.append_assoc,
              List.singleton_append]
            rw [show (255 + (0 + 1) + rest.length - 256) = rest.length by omega]
            rw [show (255 + 1 + (rest.length + 1) - 256) = rest.length + 1 by omega]
            rw [List.drop_succ_cons]
            simp
      · rw [if_neg h256]
        have hlt : c.length < 256 := Nat.lt_of_not_le h256
        have hfresh2 : ∀ v ∈ rest,
            (c ++ [(ai_cache_key w ["Definition", "Example"], Json.obj [])]).lookup
              (ai_cache_key v ["Definition", "Example"]) = none := by
          intro v hv
          rw [lookup_append_of_none (hfresh v (by simp [hv]))]
          have hne : ¬ ai_cache_key v ["Definition", "Example"] =
              ai_cache_key w ["Definition", "Example"] :=
            fun h => hhead v hv h.symm
          have hbeq : (ai_cache_key v ["Definition", "Example"] ==
              ai_cache_key w ["Definition", "Example"]) = false := by simpa using hne
          simp [List.lookup_cons, hbeq]
        rw [ih _ (by simp; omega) hfresh2 hpairrest]
        rw [List.append_assoc]
        simp only [List.length_append, List.length_cons, List.length_nil, List.map_cons,
          List.singleton_append]
        rw [show (c.length + (0 + 1) + rest.length - 256) =
          c.length + (rest.length + 1) - 256 by omega]

theorem c10words_ne_w : ∀ w ∈ c10words, ¬ w = "w" := by
  intro w hw
  rcases List.mem_map.1 hw with ⟨n, _, rfl⟩
  intro h
  have hd := congrArg String.data h
  rw [List.replicate_succ] at hd
  simp only [show ("w".data) = ['w'] from rfl] at hd
  have : 'a' = 'w' := (List.cons.injEq _ _ _ _ ▸ hd).1
  exact absurd this (by decide)

theorem c10words_pairwise : c10words.Pairwise (fun w1 w2 =>
    ai_cache_key w1 ["Definition", "Example"] ≠ ai_cache_key w2 ["Definition", "Example"]) := by
  have hinj : Function.Injective (fun n => String.mk (List.replicate (n + 1) 'a')) := by
    intro n m h
    have hd := congrArg String.data h
    have : n + 1 = m + 1 := by
      have := congrArg List.length hd
      simpa using this
    omega
  have hnd : c10words.Nodup := List.Nodup.map hinj (List.nodup_range 256)
  exact hnd.imp (fun hne hkeq => hne (ai_cache_key_inj hkeq))

/-- C10, counterexample.  The claim asserts that after a failed AI request the
cached empty result answers every repeated call for the rest of the session
without a new request.  After the failed call for the word w, a session of
256 further failed calls for distinct words evicts the entry (oldest-first
eviction at the 256-entry capacity), and the repeated call for w issues a
request again. -/
theorem C10_counterexample :
    (suggest_fields (fun _ => none) none "w" ["Definition", "Example"]
        (c10words.foldl c10step (c10step [] "w"))).2.2 = true := by
  have hinit : c10step [] "w" =
      [(ai_cache_key "w" ["Definition", "Example"], Json.obj [])] := by
    rw [@c10step_miss [] "w" rfl]
    rfl
  have hfresh : ∀ w ∈ c10words,
      (c10step [] "w").lookup (ai_cache_key w ["Definition", "Example"]) = none := by
    intro w hw
    rw [hinit]
    apply lookup_eq_none_of_forall
    intro p hp
    rcases List.mem_singleton.1 hp with rfl
    exact fun h => (c10words_ne_w w hw) (ai_cache_key_inj h).symm
  have hlen1 : (c10step [] "w").length = 1 := by rw [hinit]; rfl
  have hfold := c10_fold c10words (c10step [] "w") (by rw [hlen1]; omega)
    hfresh c10words_pairwise
  have hwords_len : c10words.length = 256 := by simp [c10words]
  rw [hinit, hwords_len] at hfold
  rw [hinit, hfold]
  rw [show ([(ai_cache_key "w" ["Definition", "Example"], Json.obj [])].length + 256 - 256)
    = 1 from by simp]
  simp only [List.singleton_append, List.drop_succ_cons, List.drop_zero]
  have hmiss : (c10words.map
      (fun w => (ai_cache_key w ["Definition", "Example"], Json.obj []))).lookup
        (ai_cache_key "w" ["Definition", "Example"]) = none := by
    apply lookup_eq_none_of_forall
    intro p hp
    rcases List.mem_map.1 hp with ⟨w, hw, rfl⟩
    exact fun h => (c10words_ne_w w hw) (ai_cache_key_inj h)
  simp [suggest_fields, hmiss]

/-- C10, amended.  When the AI request fails or its response cannot be parsed
as JSON, the empty result is stored in the cache under the word and sorted
field list key; any later call with the same word and field list made while
the entry is still cached (it can be evicted, oldest-first, once the cache
reaches its 256-entry capacity) returns the empty result from the cache
without issuing another request. -/
theorem C10_amended (parse : String → Option Json) (respond : Option String)
    (word : String) (fields : List String) (cache : List (String × Json))
    (hmiss : cache.lookup (ai_cache_key word fields) = none)
    (hfail : respond = none ∨
      ∃ s, respond = some s ∧ (s = "" ∨ parse (cleanupResponse s) = none)) :
    (suggest_fields parse respond word fields cache).1 = Json.obj [] ∧
    (suggest_fields parse respond word fields cache).2.2 = true ∧
    ((suggest_fields parse respond word fields cache).2.1).lookup
      (ai_cache_key word fields) = some (Json.obj []) ∧
    (∀ (parse2 : String → Option Json) (respond2 : Option String),
      suggest_fields parse2 respond2 word fields
          ((suggest_fields parse respond word fields cache).2.1) =
        (Json.obj [], (suggest_fields parse respond word fields cache).2.1, false)) := by
  have hmain : suggest_fields parse respond word fields cache =
      (Json.obj [], save_to_cache cache (ai_cache_key word fields) (Json.obj []), true) := by
    unfold suggest_fields
    simp only [hmiss]
    rcases hfail with rfl | ⟨s, rfl, hs⟩
    · rfl
    · rcases hs with rfl | hs
      · rfl
      · by_cases hse : s = ""
        · simp [hse]
        · simp [hse, hs]
  have hcached : (save_to_cache cache (ai_cache_key word fields) (Json.obj [])).lookup
      (ai_cache_key word fields) = some (Json.obj []) := by
    unfold save_to_cache
    by_cases hlen : 256 ≤ cache.length
    · rw [if_pos hlen]
      have htail := lookup_tail_of_none hmiss
      simp only [htail, Option.isSome_none, Bool.false_eq_true, if_false]
      rw [lookup_append_of_none htail]
      simp [List.lookup_cons]
    · rw [if_neg hlen]
      simp only [hmiss, Option.isSome_none, Bool.false_eq_true, if_false]
      rw [lookup_append_of_none hmiss]
      simp [List.lookup_cons]
  refine ⟨by rw [hmain], by rw [hmain], ?_, ?_⟩
  · rw [hmain]
    exact hcached
  · intro parse2 respond2
    rw [hmain]
    unfold suggest_fields
    simp only [hcached]

/-- C10, witness for the amended theorem: a failed request for the word w on
an empty cache, then the immediately repeated call. -/
theorem C10_witness :
    (suggest_fields (fun _ => none) none "w" ["Definition"] []).1 = Json.obj [] ∧
    (suggest_fields (fun _ => none) none "w" ["Definition"] []).2.2 = true ∧
    ((suggest_fields (fun _ => none) none "w" ["Definition"] []).2.1).lookup
      (ai_cache_key "w" ["Definition"]) = some (Json.obj []) ∧
    (∀ (parse2 : String → Option Json) (respond2 : Option String),
      suggest_fields parse2 respond2 "w" ["Definition"]
          ((suggest_fields (fun _ => none) none "w" ["Definition"] []).2.1) =
        (Json.obj [], (suggest_fields (fun _ => none) none "w" ["Definition"] []).2.1, false)) :=
  C10_amended (fun _ => none) none "w" ["Definition"] [] rfl (Or.inl rfl)

end EasyWords
